import Mathlib

/-!
Verification of the two-stage scan pipeline of `xray/commands/scan/scan.go`
(package `scan` of jfrog-cli-core).

The development is a shallow embedding of the Go source:

* pure helpers (`getXrayRepoPathFromTarget`, the exit-code handling of
  `indexFile`, the results fold of `Run`) become Lean functions;
* the concurrent producer/consumer pipeline built from `prepareScanTasks`,
  `createIndexerHandlerFunc` and `performScanTasks` becomes a small-step
  state machine (`PipelineState`, `applyStep`) whose schedule of steps is an
  arbitrary list, so every interleaving the coarse model distinguishes is
  covered by quantifying over schedules;
* external collaborators (the indexer subprocess, JSON unmarshalling, the
  remote scan call, the filesystem/pattern helpers of jfrog-client-go) are
  oracle functions supplied in a `Config`: the pipeline logic under
  verification is translated from the source, the collaborators stay opaque.

Strings are modelled at the character level; every character the claims care
about (the path separator) is 7-bit ASCII, where Go's byte indices and the
character indices used here agree.
-/

namespace XrayScan

/-- Errors are modelled as their message strings. -/
abbrev Err := String

/-- The `services.GraphNode` of jfrog-client-go, reduced to the only field the
scan command inspects: the `Id` of the root component. An empty `Id` is the
"empty graph / unsupported file" marker. -/
structure GraphNode where
  Id : String
deriving DecidableEq, Repr

/-- The `services.ScanResponse` of jfrog-client-go, reduced to the two lists
`Run` inspects.  The list elements themselves stay abstract (strings). -/
structure ScanResponse where
  Violations : List String
  Vulnerabilities : List String
deriving DecidableEq, Repr

/-- Modelled from the spec: a PathGroup ("a pattern (glob-like), a target
repository path, and recursion/exclude configuration").  The `spec.File` type
lives in `common/spec` of this repository, outside the sources at hand; its
extra configuration is reached only through the oracle methods of
`CollectOracle` below, so only the two fields `scan.go` reads directly are
kept. -/
structure File where
  Pattern : String
  Target : String
deriving DecidableEq, Repr

/-! ### getXrayRepoPathFromTarget (scan.go lines 332-341) -/

/-- Index of the last occurrence of a character in a list, as Go's
`strings.LastIndex` (with `none` for Go's `-1`). -/
def lastIdxOf (c : Char) : List Char → Option Nat
  | [] => none
  | x :: xs =>
    match lastIdxOf c xs with
    | some i => some (i + 1)
    | none => if x = c then some 0 else none

/-- Character-level core of `getXrayRepoPathFromTarget`: if the target ends
with a path separator it is returned as-is, otherwise it is truncated to
`target[:strings.LastIndex(target, sep)+1]` (for `LastIndex = -1` this is the
empty prefix, exactly as in Go). -/
def repoPathFromTargetChars (t : List Char) : List Char :=
  if t.getLast? = some '/' then t
  else
    match lastIdxOf '/' t with
    | some i => t.take (i + 1)
    | none => t.take 0

/-- `getXrayRepoPathFromTarget` of scan.go: Xray expects a path inside a repo
but not a path to a file, so a trailing filename component is stripped. -/
def getXrayRepoPathFromTarget (target : String) : String :=
  String.mk (repoPathFromTargetChars target.toList)

/-! ### indexFile (scan.go lines 101-119) -/

/-- Outcome of running the indexer subprocess via `io.RunCmdOutput`: either
a successful exit with its standard output, an `exec.ExitError` carrying the
exit code, or a launch failure that is not an `exec.ExitError`. -/
inductive ExecOutcome where
  | success (output : String)
  | exitError (code : Int) (output : String)
  | launchFailure (msg : String)
deriving DecidableEq, Repr

/-- The fixed sub-command passed to the indexer binary. -/
def indexingCommand : String := "graph"

/-- The designated "file type not supported" exit code of the indexer. -/
def fileNotSupportedExitCode : Int := 3

/-- `indexFile` of scan.go.  `exec` is the oracle for running the indexer
subprocess on a file path; `parse` is the oracle for `json.Unmarshal` of its
output (returning the unmarshalling error when the output is malformed).
An `exec.ExitError` with the designated exit code yields the zero-value
`GraphNode` (empty `Id`) and no error; every other failure is an error. -/
def indexFile (exec : String → ExecOutcome) (parse : String → Except Err GraphNode)
    (filePath : String) : Except Err GraphNode :=
  match exec filePath with
  | .exitError code _output =>
    if code = fileNotSupportedExitCode then .ok { Id := "" }
    else .error ("Xray indexer app failed indexing " ++ filePath)
  | .launchFailure _msg => .error ("Xray indexer app failed indexing " ++ filePath)
  | .success output => parse output

/-! ### The results fold of Run (scan.go lines 155-166) -/

/-- The result-handling loop of `Run`: starting from `scanPassed = true` and
an empty flat list, every per-thread result is appended to the flat list and
any violation or vulnerability flips the flag to `false`. -/
def handleResults (resultsArr : List (List ScanResponse)) : Bool × List ScanResponse :=
  resultsArr.foldl
    (fun acc arr =>
      arr.foldl
        (fun acc2 res =>
          (if res.Violations.length > 0 || res.Vulnerabilities.length > 0 then false
           else acc2.1,
           acc2.2 ++ [res]))
        acc)
    (true, [])

/-! ### collectFilesForIndexing / collectPatternMatchingFiles
(scan.go lines 274-330)

All leaves of the collection walk live in jfrog-client-go (`fspatterns`,
`fileutils`, `clientutils`) or in `common/spec` of this repository, outside
the sources at hand; they are oracle fields here.  The control flow — the
early error returns, the single-file fast path, the per-path filter loop that
skips directories and emits matching files as it goes — is translated from
the source. -/

/-- Oracles for the external helpers used by the collection walk.  Compiled
regular expressions and common file params are abstracted as strings. -/
structure CollectOracle where
  replaceTilde : String → String
  getPatternType : File → String
  getRootPath : String → String → String → Except Err String
  isDirExists : String → Except Err Bool
  convertPattern : String → String → String
  toCommonParams : File → Except Err String
  prepareExclude : String → String
  compileRegex : String → Except Err String
  isRecursive : File → Except Err Bool
  getPaths : String → Bool → Except Err (List String)
  prepareAndFilter : String → String → String → Except Err (List String × Bool)

/-- The per-path loop of `collectPatternMatchingFiles`: for each path, run
`PrepareAndFilterPaths`; an error stops the loop (paths already emitted stay
emitted), a directory is skipped, and a path with a non-empty match list is
emitted.  Returns the emitted paths in order and the terminating error, if
any. -/
def collectLoop (o : CollectOracle) (excludePathPattern : String) (patternRegex : String) :
    List String → List String × Option Err
  | [] => ([], none)
  | path :: rest =>
    match o.prepareAndFilter path excludePathPattern patternRegex with
    | .error e => ([], some e)
    | .ok (matchList, isDir) =>
      if isDir then collectLoop o excludePathPattern patternRegex rest
      else if matchList.length > 0 then
        let (emitted, errOpt) := collectLoop o excludePathPattern patternRegex rest
        (path :: emitted, errOpt)
      else collectLoop o excludePathPattern patternRegex rest

/-- `collectPatternMatchingFiles` of scan.go: prepare the common params, the
exclude pattern, the compiled regex, the recursion flag and the path list,
bailing out on the first error, then run the filter loop. -/
def collectPatternMatchingFiles (o : CollectOracle) (fileData : File) (rootPath : String) :
    List String × Option Err :=
  match o.toCommonParams fileData with
  | .error e => ([], some e)
  | .ok fileParams =>
    let excludePathPattern := o.prepareExclude fileParams
    match o.compileRegex fileData.Pattern with
    | .error e => ([], some e)
    | .ok patternRegex =>
      match o.isRecursive fileData with
      | .error e => ([], some e)
      | .ok recursive =>
        match o.getPaths rootPath recursive with
        | .error e => ([], some e)
        | .ok paths => collectLoop o excludePathPattern patternRegex paths

/-- `collectFilesForIndexing` of scan.go: resolve the root path; a
single-file root is emitted unconditionally, a directory root goes through
the pattern-matching walk.  Returns the emitted candidate paths and the
error, if any, that aborted this group. -/
def collectFilesForIndexing (o : CollectOracle) (fileData : File) :
    List String × Option Err :=
  let fd1 : File := { fileData with Pattern := o.replaceTilde fileData.Pattern }
  let patternType := o.getPatternType fd1
  match o.getRootPath fd1.Pattern fd1.Target patternType with
  | .error e => ([], some e)
  | .ok rootPath =>
    match o.isDirExists rootPath with
    | .error e => ([], some e)
    | .ok isDir =>
      if !isDir then ([rootPath], none)
      else
        let fd2 : File := { fd1 with Pattern := o.convertPattern fd1.Pattern patternType }
        collectPatternMatchingFiles o fd2 rootPath

/-! ### The ScanCommand receiver and thread clamping (scan.go lines 33-46,
141-149) -/

/-- The fields of the `ScanCommand` struct that the modelled code reads. -/
structure ScanCommand where
  threads : Int
  projectKey : String
  watches : List String
  includeVulnerabilities : Bool
  includeLicenses : Bool
  scanPassed : Bool
  fail : Bool
deriving DecidableEq, Repr

/-- `IsScanPassed` of scan.go. -/
def ScanCommand.IsScanPassed (scanCmd : ScanCommand) : Bool :=
  scanCmd.scanPassed

/-- The local `threads` computation of `Run`: `threads := 1` and then
`if scanCmd.threads > 1 { threads = scanCmd.threads }`.  This sizes the
per-worker `resultsArr`. -/
def clampThreads (threads : Int) : Int :=
  if threads > 1 then threads else 1

/-- Modelled from the spec: the worker-pool constructor
(gofrog `parallel.NewRunner`, outside the sources at hand) builds "a bounded
worker pool (size = configured thread count, minimum 1)", so a configured
count below one still yields one worker. -/
def runnerSize (maxParallel : Int) : Int :=
  if maxParallel < 1 then 1 else maxParallel

/-! ### The pipeline state machine
(prepareScanTasks, createIndexerHandlerFunc, getAddTaskToProducerFunc,
performScanTasks — scan.go lines 198-272) -/

/-- The `services.XrayGraphScanParams` built by the stage-2 task. -/
structure XrayGraphScanParams where
  Graph : GraphNode
  RepoPath : String
  Watches : List String
  ProjectKey : String
  ScanType : String
deriving DecidableEq, Repr

/-- The `services.Binary` scan-type tag. -/
def binaryScanType : String := "binary"

/-- A queued stage-1 (indexing) task: the candidate file path, plus (as ghost
data for specification only) the PathGroup being iterated when the task was
enqueued — the group whose pattern produced the path. -/
structure Task1 where
  filePath : String
  origin : File
deriving DecidableEq, Repr

/-- A queued stage-2 (scan dispatch) task: the non-empty graph, plus the
ghost origin group of the candidate path it came from. -/
structure Task2 where
  graph : GraphNode
  origin : File
deriving DecidableEq, Repr

/-- A configuration of one `Run` invocation: the spec file groups, the
receiver fields, and the oracles for every external collaborator. -/
structure Config where
  cmd : ScanCommand
  groups : List File
  oracle : CollectOracle
  exec : String → ExecOutcome
  parse : String → Except Err GraphNode
  runScanGraph : XrayGraphScanParams → Except Err ScanResponse

/-- The mutable state of the pipeline.

`loopCell` is the single `fileGroup` loop variable of `prepareScanTasks`:
this code predates Go 1.22, where a `for ... := range` loop declares ONE
variable for the whole loop, and `createIndexerHandlerFunc` receives
`&fileGroup` — so every handler of every group aliases this one cell, and a
task reading `file.Target` at execution time sees whatever group the
producer most recently started, not necessarily its own.

`errs1`/`errs2` record the sequence of `AddError` calls on the two
`ErrorsQueue`s (retention by the bounded queue itself is modelled
separately by `ErrorsQueue` below).  `enqueued1`, `processed1`,
`forwarded` and the origin components are ghost data used only by the
specifications. -/
structure PipelineState where
  loopCell : Option File
  groupsLeft : List File
  queue1 : List Task1
  done1 : Bool
  finished1 : Bool
  queue2 : List Task2
  done2 : Bool
  finished2 : Bool
  resultsArr : List (List ScanResponse)
  errs1 : List Err
  errs2 : List Err
  requests : List (XrayGraphScanParams × String)
  enqueued1 : List Task1
  processed1 : List Task1
  forwarded : Nat
deriving DecidableEq, Repr

/-- The state right after `Run` creates the runners, the error queues and the
per-worker `resultsArr` (scan.go lines 141-152). -/
def startState (cfg : Config) : PipelineState :=
  { loopCell := none
    groupsLeft := cfg.groups
    queue1 := []
    done1 := false
    finished1 := false
    queue2 := []
    done2 := false
    finished2 := false
    resultsArr := List.replicate (clampThreads cfg.cmd.threads).toNat []
    errs1 := []
    errs2 := []
    requests := []
    enqueued1 := []
    processed1 := []
    forwarded := 0 }

/-- The stage-1 task body of `createIndexerHandlerFunc` up to the forwarding
decision: index the file; an indexing error is returned (first component
`none`, error in the second); an empty-`Id` graph is dropped silently; a
non-empty graph is forwarded (first component `some`). -/
def stage1Process (cfg : Config) (filePath : String) : Option GraphNode × Option Err :=
  match indexFile cfg.exec cfg.parse filePath with
  | .error e => (none, some e)
  | .ok graph => if graph.Id = "" then (none, none) else (some graph, none)

/-- The `XrayGraphScanParams` built when a stage-2 task executes: the repo
path is derived, at that moment, from `file.Target` — the aliased loop
variable `loopCell` (its Go zero value has an empty `Target`, hence the
default). -/
def mkScanParams (cfg : Config) (loopCell : Option File) (t : Task2) : XrayGraphScanParams :=
  { Graph := t.graph
    RepoPath := getXrayRepoPathFromTarget ((loopCell.map File.Target).getD "")
    Watches := cfg.cmd.watches
    ProjectKey := cfg.cmd.projectKey
    ScanType := binaryScanType }

/-- One atomic step of the pipeline.  `runTask2` carries the worker's thread
index, which selects the result slot. -/
inductive Step where
  | produceGroup
  | setDone1
  | runTask1
  | finish1
  | setDone2
  | runTask2 (threadId : Nat)
  | finish2
deriving DecidableEq, Repr

/-- Total number of stored scan results across all worker slots. -/
def resultsTotal (s : PipelineState) : Nat :=
  (s.resultsArr.map List.length).sum

/-- The small-step transition function.  Each constructor of `Step` is one
atomic piece of the Go code; a step whose enabling condition does not hold
leaves the state unchanged.

* `produceGroup` — one iteration of the producer goroutine of
  `prepareScanTasks`: write the next group into the loop variable, run
  `collectFilesForIndexing` (every emitted path becomes a stage-1 task via
  `getAddTaskToProducerFunc`), and record the group's error, if any, via
  `fileErrorsQueue.AddError`.
* `setDone1` — the deferred `fileProducer.Done()` after the loop ends.
* `runTask1` — a stage-1 worker runs one queued indexing task
  (the body of `createIndexerHandlerFunc`): an indexing error goes to the
  stage-1 queue via `AddTaskWithError`; a non-empty graph is forwarded as
  exactly one new stage-2 task.
* `finish1` — `fileConsumer.Run()` returns: the pool has been told `Done`
  and its queue is drained.
* `setDone2` — `indexedFileConsumer.Done()`, which the goroutine of
  `performScanTasks` calls right after `fileConsumer.Run()` returns.
* `runTask2 tid` — a stage-2 worker runs one queued scan task: build the
  params (reading `file.Target` through the aliased loop variable NOW),
  call the remote scan; an error is logged and recorded via
  `AddTaskWithError` with the stage-2 queue, a success is appended to the
  worker's own result slot.
* `finish2` — `indexedFileConsumer.Run()` returns, unblocking the caller. -/
def applyStep (cfg : Config) (s : PipelineState) : Step → PipelineState
  | .produceGroup =>
    match s.groupsLeft with
    | [] => s
    | g :: rest =>
      let collected := collectFilesForIndexing cfg.oracle g
      let newTasks := collected.1.map (fun p => { filePath := p, origin := g : Task1 })
      { s with loopCell := some g
               groupsLeft := rest
               queue1 := s.queue1 ++ newTasks
               enqueued1 := s.enqueued1 ++ newTasks
               errs1 := s.errs1 ++ collected.2.toList }
  | .setDone1 =>
    if s.groupsLeft = [] then { s with done1 := true } else s
  | .runTask1 =>
    match s.queue1 with
    | [] => s
    | t :: rest =>
      match stage1Process cfg t.filePath with
      | (some graph, _) =>
        { s with queue1 := rest
                 processed1 := s.processed1 ++ [t]
                 queue2 := s.queue2 ++ [{ graph := graph, origin := t.origin }]
                 forwarded := s.forwarded + 1 }
      | (none, errOpt) =>
        { s with queue1 := rest
                 processed1 := s.processed1 ++ [t]
                 errs1 := s.errs1 ++ errOpt.toList }
  | .finish1 =>
    if s.done1 = true ∧ s.queue1 = [] then { s with finished1 := true } else s
  | .setDone2 =>
    if s.finished1 = true then { s with done2 := true } else s
  | .runTask2 tid =>
    match s.queue2 with
    | [] => s
    | t :: rest =>
      if tid < s.resultsArr.length then
        let params := mkScanParams cfg s.loopCell t
        let s1 := { s with queue2 := rest
                           requests := s.requests ++ [(params, t.origin.Target)] }
        match cfg.runScanGraph params with
        | .error e => { s1 with errs2 := s1.errs2 ++ [e] }
        | .ok res =>
          { s1 with resultsArr := s1.resultsArr.set tid ((s1.resultsArr.getD tid []) ++ [res]) }
      else s
  | .finish2 =>
    if s.done2 = true ∧ s.queue2 = [] then { s with finished2 := true } else s

/-- Run the pipeline under an arbitrary schedule of steps. -/
def run (cfg : Config) (steps : List Step) : PipelineState :=
  steps.foldl (applyStep cfg) (startState cfg)

/-! ### The bounded error queues and the tail of Run
(scan.go lines 145-153 and 155-187) -/

/-- Modelled from the spec: the bounded error collector of jfrog-client-go
(`clientutils.ErrorsQueue`, outside the sources at hand) — "a thread-safe
bounded multi-producer collector" whose "capacity parameter [is] observed as
1": `AddError` retains the error only while fewer than `capacity` errors are
held and drops it otherwise; `GetError` returns the first retained error, or
nothing. -/
structure ErrorsQueue where
  capacity : Nat
  buffer : List Err
deriving DecidableEq, Repr

/-- `clientutils.NewErrorsQueue`. -/
def newErrorsQueue (size : Nat) : ErrorsQueue :=
  { capacity := size, buffer := [] }

/-- `AddError`: keep the error iff the queue is below capacity. -/
def ErrorsQueue.addError (q : ErrorsQueue) (e : Err) : ErrorsQueue :=
  if q.buffer.length < q.capacity then { q with buffer := q.buffer ++ [e] } else q

/-- `GetError`: the first retained error, if any. -/
def ErrorsQueue.getError (q : ErrorsQueue) : Option Err :=
  q.buffer.head?

/-- The contents of a capacity-1 queue (as created by `Run`:
`clientutils.NewErrorsQueue(1)`) after the given sequence of `AddError`
calls. -/
def retainedErrors (errs : List Err) : ErrorsQueue :=
  errs.foldl ErrorsQueue.addError (newErrorsQueue 1)

/-- The deferred error wrapper of `Run`. -/
def wrapRunError : Option Err → Option Err
  | none => none
  | some e => some ("Scan command failed. " ++ e)

/-- Oracles for the tail of `Run`: the outcome of `PrintScanResults`, the
`CheckIfFailBuild` predicate and the `NewFailBuildError` message. -/
structure RunEnv where
  printErr : Option Err
  checkIfFailBuild : List ScanResponse → Bool
  failBuildErr : Err

/-- The tail of `Run` after both pools drain (scan.go lines 155-187): fold
the per-worker results into the `scanPassed` flag and the flat list, print,
optionally fail the build, and only then consult the stage-1 error queue
followed by the stage-2 error queue; the deferred wrapper prefixes any
returned error. -/
def runEpilogue (cmd : ScanCommand) (env : RunEnv) (s : PipelineState) :
    ScanCommand × Option Err :=
  let folded := handleResults s.resultsArr
  let cmd1 := { cmd with scanPassed := folded.1 }
  let err :=
    match env.printErr with
    | some e => some e
    | none =>
      if cmd1.fail = true ∧ cmd1.includeVulnerabilities = false ∧
          env.checkIfFailBuild folded.2 = true then
        some env.failBuildErr
      else
        match (retainedErrors s.errs1).getError with
        | some e => some e
        | none =>
          match (retainedErrors s.errs2).getError with
          | some e => some e
          | none => none
  (cmd1, wrapRunError err)

/-- The modelled `Run` after the pipeline phase: execute the schedule, then
the epilogue. -/
def runCommand (cfg : Config) (steps : List Step) (env : RunEnv) :
    ScanCommand × Option Err :=
  runEpilogue cfg.cmd env (run cfg steps)

/-- The producer goroutine of `prepareScanTasks` summarised as a pure
function: iterate the groups in order; each group contributes its collected
paths as stage-1 tasks and, when collection aborted, its error — and the
iteration continues with the remaining groups regardless. -/
def prepareScanTasksModel (o : CollectOracle) : List File → List Task1 × List Err
  | [] => ([], [])
  | g :: rest =>
    let collected := collectFilesForIndexing o g
    let tail := prepareScanTasksModel o rest
    (collected.1.map (fun p => { filePath := p, origin := g : Task1 }) ++ tail.1,
     collected.2.toList ++ tail.2)

/-! ### Concrete instances used to evaluate the model on closed inputs -/

/-- A concrete collection oracle: a root path equal to "dirroot" is a
directory containing no paths; any other root is a single file, emitted via
the single-file fast path. -/
def demoOracle : CollectOracle :=
  { replaceTilde := fun p => p
    getPatternType := fun _ => "wildcard"
    getRootPath := fun pattern _ _ => .ok pattern
    isDirExists := fun root => .ok (root == "dirroot")
    convertPattern := fun p _ => p
    toCommonParams := fun _ => .ok "params"
    prepareExclude := fun _ => "exclude"
    compileRegex := fun p => .ok p
    isRecursive := fun _ => .ok true
    getPaths := fun _ _ => .ok []
    prepareAndFilter := fun _ _ _ => .ok ([], false) }

/-- First demo group: its pattern resolves to the single file
"artifact.bin"; its target names repository directory "repo-a/". -/
def groupA : File := { Pattern := "artifact.bin", Target := "repo-a/" }

/-- Second demo group: its pattern resolves to the empty directory
"dirroot", so it contributes no candidate paths; its target names
repository directory "repo-b/". -/
def groupB : File := { Pattern := "dirroot", Target := "repo-b/" }

/-- A concrete run configuration with the two demo groups: indexing any file
succeeds with a graph whose id is "artifact-graph", and the remote scan
succeeds with one violation. -/
def demoConfig : Config :=
  { cmd := { threads := 2, projectKey := "proj", watches := ["w1"],
             includeVulnerabilities := false, includeLicenses := false,
             scanPassed := false, fail := true }
    groups := [groupA, groupB]
    oracle := demoOracle
    exec := fun _ => .success "graph-json"
    parse := fun _ => .ok { Id := "artifact-graph" }
    runScanGraph := fun _ => .ok { Violations := ["CVE-1"], Vulnerabilities := [] } }

/-- A schedule of `demoConfig` in which the producer iterates both groups
before the stage-1 task of the first group's file runs — the behaviour the
worker pools permit, since tasks execute asynchronously. -/
def demoSchedule : List Step :=
  [Step.produceGroup, Step.produceGroup, Step.setDone1, Step.runTask1,
   Step.finish1, Step.setDone2, Step.runTask2 0, Step.finish2]

/-! ### Invariants of the pipeline -/

/-- Number of tasks in a stage-1 task list whose processing forwards a
stage-2 task (indexing succeeds with a non-empty graph). -/
def countForwardable (cfg : Config) (l : List Task1) : Nat :=
  l.countP (fun t => (stage1Process cfg t.filePath).1.isSome)

/-- The inductive invariant of the pipeline: the completion flags are
ordered (`done1` only after the producer exhausted the groups, `finished1`
only once stage 1 is told done and drained, `done2` only after `finished1`,
`finished2` only once stage 2 is told done and drained), and the ghost
counter `forwarded` both accounts for every stage-2 task exactly once
(pending, stored as a result, or recorded as a stage-2 error) and counts
exactly the processed stage-1 tasks that forward. -/
def Inv (cfg : Config) (s : PipelineState) : Prop :=
  (s.done1 = true → s.groupsLeft = []) ∧
  (s.finished1 = true → s.done1 = true ∧ s.queue1 = []) ∧
  (s.done2 = true → s.finished1 = true) ∧
  (s.finished2 = true → s.done2 = true ∧ s.queue2 = []) ∧
  s.forwarded = s.queue2.length + resultsTotal s + s.errs2.length ∧
  s.forwarded = countForwardable cfg s.processed1 ∧
  s.enqueued1.length = s.queue1.length + s.processed1.length

theorem inv_startState (cfg : Config) : Inv cfg (startState cfg) := by
  refine ⟨?_, ?_, ?_, ?_, ?_, ?_, ?_⟩ <;>
    simp [startState, Inv, resultsTotal, countForwardable]

/-- Appending one element to the slot `tid` of a list of lists increases the
total length by one. -/
theorem sum_map_length_set {α : Type _} (l : List (List α)) (tid : Nat) (r : α)
    (h : tid < l.length) :
    ((l.set tid ((l.getD tid []) ++ [r])).map List.length).sum
      = (l.map List.length).sum + 1 := by
  induction l generalizing tid with
  | nil => simp at h
  | cons x xs ih =>
    cases tid with
    | zero => simp [List.getD]; omega
    | succ n =>
      have hn : n < xs.length := by simpa using h
      have := ih n hn
      simp only [List.set, List.getD_cons_succ, List.map_cons, List.sum_cons, this]
      omega

theorem inv_applyStep (cfg : Config) (s : PipelineState) (a : Step) (h : Inv cfg s) :
    Inv cfg (applyStep cfg s a) := by
  obtain ⟨h1, h2, h3, h4, h5, h6, h7⟩ := h
  cases a with
  | produceGroup =>
    cases hg : s.groupsLeft with
    | nil => simpa [applyStep, hg] using ⟨h1, h2, h3, h4, h5, h6, h7⟩
    | cons g rest =>
      have hd1 : s.done1 = true → False := fun hd => by
        rw [h1 hd] at hg; cases hg
      simp only [applyStep, hg]
      refine ⟨fun hd => (hd1 hd).elim, fun hf => (hd1 (h2 hf).1).elim, h3, h4, h5, h6, ?_⟩
      simp only [List.length_append]
      omega
  | setDone1 =>
    by_cases hc : s.groupsLeft = []
    · simp only [applyStep, if_pos hc]
      exact ⟨fun _ => hc, fun hf => ⟨rfl, (h2 hf).2⟩, h3, h4, h5, h6, h7⟩
    · simp only [applyStep, if_neg hc]
      exact ⟨h1, h2, h3, h4, h5, h6, h7⟩
  | runTask1 =>
    cases hq : s.queue1 with
    | nil => simpa [applyStep, hq] using ⟨h1, h2, h3, h4, h5, h6, h7⟩
    | cons t rest =>
      have hf1 : s.finished1 = true → False := fun hf => by
        have h0 := (h2 hf).2; rw [h0] at hq; cases hq
      have hlen : s.queue1.length = rest.length + 1 := by rw [hq]; simp
      rcases hsp : stage1Process cfg t.filePath with ⟨fst, snd⟩
      cases fst with
      | some graph =>
        have hcount : countForwardable cfg (s.processed1 ++ [t])
            = countForwardable cfg s.processed1 + 1 := by
          simp [countForwardable, List.countP_append, List.countP_cons, hsp]
        simp only [applyStep, hq, hsp]
        refine ⟨h1, fun hf => (hf1 hf).elim, h3,
          fun hf => (hf1 (h3 (h4 hf).1)).elim, ?_, ?_, ?_⟩
        · simp only [resultsTotal, List.length_append, List.length_cons,
            List.length_nil] at h5 ⊢
          omega
        · show s.forwarded + 1 = countForwardable cfg (s.processed1 ++ [t])
          rw [hcount]
          omega
        · simp only [List.length_append, List.length_cons, List.length_nil]
          omega
      | none =>
        have hcount : countForwardable cfg (s.processed1 ++ [t])
            = countForwardable cfg s.processed1 := by
          simp [countForwardable, List.countP_append, List.countP_cons, hsp]
        simp only [applyStep, hq, hsp]
        refine ⟨h1, fun hf => (hf1 hf).elim, h3, h4, ?_, ?_, ?_⟩
        · simp only [resultsTotal, List.length_append, List.length_cons,
            List.length_nil] at h5 ⊢
          omega
        · show s.forwarded = countForwardable cfg (s.processed1 ++ [t])
          rw [hcount]
          omega
        · simp only [List.length_append, List.length_cons, List.length_nil]
          omega
  | finish1 =>
    by_cases hc : s.done1 = true ∧ s.queue1 = []
    · simp only [applyStep, if_pos hc]
      exact ⟨h1, fun _ => hc, fun _ => rfl, h4, h5, h6, h7⟩
    · simp only [applyStep, if_neg hc]
      exact ⟨h1, h2, h3, h4, h5, h6, h7⟩
  | setDone2 =>
    by_cases hc : s.finished1 = true
    · simp only [applyStep, if_pos hc]
      exact ⟨h1, h2, fun _ => hc, fun hf => ⟨rfl, (h4 hf).2⟩, h5, h6, h7⟩
    · simp only [applyStep, if_neg hc]
      exact ⟨h1, h2, h3, h4, h5, h6, h7⟩
  | runTask2 tid =>
    cases hq : s.queue2 with
    | nil => simpa [applyStep, hq] using ⟨h1, h2, h3, h4, h5, h6, h7⟩
    | cons t rest =>
      have hf2 : s.finished2 = true → False := fun hf => by
        have h0 := (h4 hf).2; rw [h0] at hq; cases hq
      have hlen : s.queue2.length = rest.length + 1 := by rw [hq]; simp
      by_cases htid : tid < s.resultsArr.length
      · simp only [applyStep, hq, if_pos htid]
        cases hsc : cfg.runScanGraph (mkScanParams cfg s.loopCell t) with
        | error e =>
          simp only [hsc]
          refine ⟨h1, h2, h3, fun hf => (hf2 hf).elim, ?_, h6, h7⟩
          simp only [resultsTotal, List.length_append, List.length_cons, List.length_nil] at h5 ⊢
          omega
        | ok res =>
          have hset := sum_map_length_set s.resultsArr tid res htid
          simp only [hsc]
          refine ⟨h1, h2, h3, fun hf => (hf2 hf).elim, ?_, h6, h7⟩
          simp only [resultsTotal] at h5 ⊢
          rw [hset]
          omega
      · simpa [applyStep, hq, htid] using ⟨h1, h2, h3, h4, h5, h6, h7⟩
  | finish2 =>
    by_cases hc : s.done2 = true ∧ s.queue2 = []
    · simp only [applyStep, if_pos hc]
      exact ⟨h1, h2, h3, fun _ => hc, h5, h6, h7⟩
    · simp only [applyStep, if_neg hc]
      exact ⟨h1, h2, h3, h4, h5, h6, h7⟩

theorem inv_foldl (cfg : Config) (steps : List Step) (s : PipelineState) (h : Inv cfg s) :
    Inv cfg (steps.foldl (applyStep cfg) s) := by
  induction steps generalizing s with
  | nil => exact h
  | cons a rest ih => exact ih (applyStep cfg s a) (inv_applyStep cfg s a h)

theorem inv_run (cfg : Config) (steps : List Step) : Inv cfg (run cfg steps) :=
  inv_foldl cfg steps (startState cfg) (inv_startState cfg)

/-- Once stage 2 has been signalled done, no step can enqueue another
stage-2 task: the ghost count of forwarded tasks is frozen and `done2`
stays set. -/
theorem applyStep_frozen_after_done2 (cfg : Config) (s : PipelineState) (a : Step)
    (h : Inv cfg s) (hd : s.done2 = true) :
    (applyStep cfg s a).done2 = true ∧ (applyStep cfg s a).forwarded = s.forwarded := by
  obtain ⟨h1, h2, h3, h4, h5, h6, h7⟩ := h
  have hf1 : s.finished1 = true := h3 hd
  have hq1 : s.queue1 = [] := (h2 hf1).2
  have hg : s.groupsLeft = [] := h1 (h2 hf1).1
  cases a with
  | produceGroup => simp [applyStep, hg, hd]
  | setDone1 =>
    simp only [applyStep]
    split <;> simp [hd]
  | runTask1 => simp [applyStep, hq1, hd]
  | finish1 =>
    simp only [applyStep]
    split <;> simp [hd]
  | setDone2 =>
    simp only [applyStep]
    split <;> simp [hd]
  | runTask2 tid =>
    cases hq : s.queue2 with
    | nil => simp [applyStep, hq, hd]
    | cons t rest =>
      by_cases htid : tid < s.resultsArr.length
      · simp only [applyStep, hq, if_pos htid]
        cases hsc : cfg.runScanGraph (mkScanParams cfg s.loopCell t) <;> simp [hsc, hd]
      · simp [applyStep, hq, htid, hd]
  | finish2 =>
    simp only [applyStep]
    split <;> simp [hd]

/-- Frozen-forwarding, lifted to any continuation of the schedule. -/
theorem foldl_frozen_after_done2 (cfg : Config) (more : List Step) (s : PipelineState)
    (h : Inv cfg s) (hd : s.done2 = true) :
    (more.foldl (applyStep cfg) s).forwarded = s.forwarded := by
  induction more generalizing s with
  | nil => rfl
  | cons a rest ih =>
    have hfr := applyStep_frozen_after_done2 cfg s a h hd
    have hinv := inv_applyStep cfg s a h
    simp only [List.foldl_cons]
    rw [ih (applyStep cfg s a) hinv hfr.1, hfr.2]

/-! ### Lemmas about getXrayRepoPathFromTarget -/

theorem lastIdxOf_eq_none {c : Char} {l : List Char} (h : c ∉ l) :
    lastIdxOf c l = none := by
  induction l with
  | nil => rfl
  | cons x xs ih =>
    have hx : ¬x = c := fun he => h (he ▸ List.mem_cons_self x xs)
    have hxs : c ∉ xs := fun hm => h (List.mem_cons_of_mem x hm)
    simp [lastIdxOf, ih hxs, hx]

theorem lastIdxOf_append_cons {rest : List Char} (p : List Char)
    (h : lastIdxOf '/' rest = none) :
    lastIdxOf '/' (p ++ '/' :: rest) = some p.length := by
  induction p with
  | nil => simp [lastIdxOf, h]
  | cons x xs ih => simp [lastIdxOf, ih]

theorem take_length_append_cons (p : List Char) (c : Char) (rest : List Char) :
    (p ++ c :: rest).take (p.length + 1) = p ++ [c] := by
  induction p with
  | nil => simp
  | cons x xs ih => simpa using ih

/-- A target ending in the separator is mapped to itself. -/
theorem repoPathFromTargetChars_of_sep (t : List Char) (h : t.getLast? = some '/') :
    repoPathFromTargetChars t = t := by
  simp [repoPathFromTargetChars, h]

/-- A target whose final component contains no separator is truncated to the
prefix ending at its last separator. -/
theorem repoPathFromTargetChars_strip (p rest : List Char)
    (h1 : '/' ∉ rest) (h2 : rest ≠ []) :
    repoPathFromTargetChars (p ++ '/' :: rest) = p ++ ['/'] := by
  have hlast : (p ++ '/' :: rest).getLast? = rest.getLast? := by
    rw [List.getLast?_append]
    cases hr : rest.getLast? with
    | some a => simp [List.getLast?_cons, hr]
    | none =>
      exact absurd (by simpa using congrArg Option.isSome hr)
        (by simp [List.getLast?_isSome, h2])
  have hne : (p ++ '/' :: rest).getLast? ≠ some '/' := by
    rw [hlast]
    intro hcon
    exact h1 (List.mem_of_mem_getLast? hcon)
  have hidx : lastIdxOf '/' (p ++ '/' :: rest) = some p.length :=
    lastIdxOf_append_cons p (lastIdxOf_eq_none h1)
  rw [repoPathFromTargetChars, if_neg hne, hidx]
  exact take_length_append_cons p '/' rest

/-! ### The producer goroutine as a fold of produceGroup steps -/

theorem produce_foldl (cfg : Config) (gs : List File) (s : PipelineState)
    (h : s.groupsLeft = gs) :
    ((List.replicate gs.length Step.produceGroup).foldl (applyStep cfg) s).queue1
        = s.queue1 ++ (prepareScanTasksModel cfg.oracle gs).1 ∧
    ((List.replicate gs.length Step.produceGroup).foldl (applyStep cfg) s).errs1
        = s.errs1 ++ (prepareScanTasksModel cfg.oracle gs).2 ∧
    ((List.replicate gs.length Step.produceGroup).foldl (applyStep cfg) s).groupsLeft = [] := by
  induction gs generalizing s with
  | nil => simp [prepareScanTasksModel, h]
  | cons g rest ih =>
    have hstep : applyStep cfg s Step.produceGroup =
        { s with loopCell := some g
                 groupsLeft := rest
                 queue1 := s.queue1 ++ (collectFilesForIndexing cfg.oracle g).1.map
                   (fun p => { filePath := p, origin := g : Task1 })
                 enqueued1 := s.enqueued1 ++ (collectFilesForIndexing cfg.oracle g).1.map
                   (fun p => { filePath := p, origin := g : Task1 })
                 errs1 := s.errs1 ++ (collectFilesForIndexing cfg.oracle g).2.toList } := by
      simp [applyStep, h]
    obtain ⟨ih1, ih2, ih3⟩ := ih (applyStep cfg s Step.produceGroup) (by rw [hstep])
    refine ⟨?_, ?_, ?_⟩
    · rw [List.length_cons, List.replicate_succ, List.foldl_cons, ih1, hstep]
      simp [prepareScanTasksModel, List.append_assoc]
    · rw [List.length_cons, List.replicate_succ, List.foldl_cons, ih2, hstep]
      simp [prepareScanTasksModel, List.append_assoc]
    · rw [List.length_cons, List.replicate_succ, List.foldl_cons, ih3]

/-! ### Lemmas about the results fold -/

/-- A result with neither violations nor vulnerabilities. -/
def noFindings (res : ScanResponse) : Bool :=
  res.Violations.isEmpty && res.Vulnerabilities.isEmpty

theorem findings_ite (res : ScanResponse) (b : Bool) :
    (if res.Violations.length > 0 || res.Vulnerabilities.length > 0 then false else b)
      = (b && noFindings res) := by
  rcases res with ⟨v, u⟩
  cases v <;> cases u <;> cases b <;> simp [noFindings]

theorem handleResults_inner (arr : List ScanResponse) (b : Bool) (fl : List ScanResponse) :
    arr.foldl
      (fun acc2 res =>
        (if res.Violations.length > 0 || res.Vulnerabilities.length > 0 then false
         else acc2.1,
         acc2.2 ++ [res])) (b, fl)
      = (b && arr.all noFindings, fl ++ arr) := by
  induction arr generalizing b fl with
  | nil => simp
  | cons r rs ih =>
    rw [List.foldl_cons, ih, findings_ite]
    simp [Bool.and_assoc]

theorem handleResults_outer (ls : List (List ScanResponse)) (b : Bool)
    (fl : List ScanResponse) :
    ls.foldl
      (fun acc arr =>
        arr.foldl
          (fun acc2 res =>
            (if res.Violations.length > 0 || res.Vulnerabilities.length > 0 then false
             else acc2.1,
             acc2.2 ++ [res])) acc) (b, fl)
      = (b && ls.all (fun arr => arr.all noFindings), fl ++ ls.flatten) := by
  induction ls generalizing b fl with
  | nil => simp
  | cons arr rest ih =>
    rw [List.foldl_cons, handleResults_inner, ih]
    simp [Bool.and_assoc, List.append_assoc]

/-- The result fold of `Run` computes the all-clean flag and the
concatenation of the per-worker slots. -/
theorem handleResults_eq (resultsArr : List (List ScanResponse)) :
    handleResults resultsArr
      = (resultsArr.all (fun arr => arr.all noFindings), resultsArr.flatten) := by
  rw [handleResults, handleResults_outer]
  simp

/-! ### Lemmas about the bounded error queues -/

theorem foldl_addError_of_full (es : List Err) (q : ErrorsQueue)
    (h : ¬q.buffer.length < q.capacity) :
    es.foldl ErrorsQueue.addError q = q := by
  induction es with
  | nil => rfl
  | cons e rest ih =>
    have hstep : q.addError e = q := by simp [ErrorsQueue.addError, h]
    rw [List.foldl_cons, hstep, ih]

theorem retainedErrors_buffer (es : List Err) :
    (retainedErrors es).buffer = es.take 1 := by
  cases es with
  | nil => rfl
  | cons e rest =>
    have hfirst : (newErrorsQueue 1).addError e
        = { capacity := 1, buffer := [e] } := by
      simp [ErrorsQueue.addError, newErrorsQueue]
    have hfull := foldl_addError_of_full rest { capacity := 1, buffer := [e] } (by simp)
    rw [retainedErrors, List.foldl_cons, hfirst, hfull]
    rfl

/-! ### Further concrete instances for closed evaluations -/

/-- A run environment in which printing succeeds and the fail-build check
never fires. -/
def demoEnv : RunEnv :=
  { printErr := none
    checkIfFailBuild := fun _ => false
    failBuildErr := "fail-build" }

/-- A collection oracle whose root resolution fails exactly for the pattern
"badpattern". -/
def failingOracle : CollectOracle :=
  { demoOracle with
    getRootPath := fun pattern _ _ =>
      if pattern == "badpattern" then .error "root resolution failed"
      else .ok pattern }

/-- A group whose root resolution fails. -/
def groupBad : File := { Pattern := "badpattern", Target := "bad/" }

/-- A configuration whose first group fails to collect while the second
group contributes one file. -/
def cfgGroupFail : Config :=
  { demoConfig with oracle := failingOracle, groups := [groupBad, groupA] }

/-- A full schedule of `cfgGroupFail`: both producer iterations, the stage-1
drain, the handshake and the stage-2 drain. -/
def scheduleGroupFail : List Step :=
  [Step.produceGroup, Step.produceGroup, Step.setDone1, Step.runTask1,
   Step.finish1, Step.setDone2, Step.runTask2 0, Step.finish2]

/-- A configuration whose indexer always fails with a non-designated exit
code. -/
def cfgIndexerBroken : Config :=
  { demoConfig with exec := fun _ => .exitError 2 "boom" }

/-- A stage-1 task for the file "f.bin" of `groupA`. -/
def taskF : Task1 := { filePath := "f.bin", origin := groupA }

/-- A state of `cfgIndexerBroken` with exactly the task `taskF` queued. -/
def sIndexerBroken : PipelineState :=
  { startState cfgIndexerBroken with queue1 := [taskF] }

/-- A state with one stage-2 task pending, for exercising a single dispatch
step. -/
def sOneTask2 : PipelineState :=
  { startState demoConfig with queue2 := [{ graph := { Id := "G" }, origin := groupA }] }

/-! ### Claim theorems -/

/-- C1, refuted by evaluation: the claim says every constructed request's
repo path is derived from the target of the group whose pattern matched the
candidate path, even when the task executes after the producer advanced to a
later group.  In the modelled run `demoSchedule` the candidate "artifact.bin"
is matched by the first group (ghost origin target "repo-a/", whose derived
repo path is "repo-a/"), the producer then advances to the second group, and
the scan task built afterwards carries repo path "repo-b/" — the handler's
file pointer aliases the single range-loop variable, which by then holds the
second group. -/
theorem c1_staleTarget_eval :
    (run demoConfig demoSchedule).finished2 = true ∧
    (run demoConfig demoSchedule).requests
      = [({ Graph := { Id := "artifact-graph" }, RepoPath := "repo-b/",
            Watches := ["w1"], ProjectKey := "proj", ScanType := binaryScanType },
          "repo-a/")] ∧
    getXrayRepoPathFromTarget "repo-a/" = "repo-a/" ∧
    ("repo-b/" : String) ≠ "repo-a/" :=
  ⟨rfl, rfl, rfl, by decide⟩

/-- C2: stage 2 is signalled done only in states where stage 1 was
signalled done and fully drained; the caller's blocking wait finishes only
once stage 2 is done and drained as well; and after stage 2 has been
signalled done, no continuation of the schedule forwards another stage-2
task. -/
theorem c2_stage_barrier :
    ∀ (cfg : Config) (steps : List Step),
      ((run cfg steps).done2 = true →
        (run cfg steps).done1 = true ∧ (run cfg steps).queue1 = []) ∧
      ((run cfg steps).finished2 = true →
        (run cfg steps).done2 = true ∧ (run cfg steps).queue2 = []) ∧
      ((run cfg steps).done2 = true → ∀ more : List Step,
        (run cfg (steps ++ more)).forwarded = (run cfg steps).forwarded) := by
  intro cfg steps
  obtain ⟨h1, h2, h3, h4, h5, h6, h7⟩ := inv_run cfg steps
  refine ⟨fun hd => h2 (h3 hd), h4, ?_⟩
  intro hd more
  have happ : run cfg (steps ++ more) = more.foldl (applyStep cfg) (run cfg steps) := by
    rw [run, run, List.foldl_append]
  rw [happ]
  exact foldl_frozen_after_done2 cfg more (run cfg steps) (inv_run cfg steps) hd

/-- Closed witness for C2 on the demo run, in which stage 2 does get
signalled done. -/
theorem c2_stage_barrier_witness :
    ((run demoConfig demoSchedule).done1 = true ∧ (run demoConfig demoSchedule).queue1 = []) ∧
    (run demoConfig demoSchedule).queue2 = [] ∧
    (run demoConfig (demoSchedule ++ [Step.runTask1])).forwarded
      = (run demoConfig demoSchedule).forwarded := by
  have h := c2_stage_barrier demoConfig demoSchedule
  exact ⟨h.1 (by decide), (h.2.1 (by decide)).2, h.2.2 (by decide) [Step.runTask1]⟩

/-- C3: per candidate path, the stage-1 handler never both forwards and
errs, and it forwards exactly when indexing returned a graph with a
non-empty id; globally, the forwarded count equals the number of processed
stage-1 tasks whose indexing returned a non-empty graph, and the enqueued
stage-1 tasks are exactly the pending plus the consumed ones — so each
candidate path yields at most one forwarded stage-2 task, and exactly one
iff its graph is non-empty. -/
theorem c3_forward_exactly_once :
    ∀ (cfg : Config) (steps : List Step) (p : String),
      ¬((stage1Process cfg p).1.isSome = true ∧ (stage1Process cfg p).2.isSome = true) ∧
      ((stage1Process cfg p).1.isSome = true ↔
        ∃ g, indexFile cfg.exec cfg.parse p = .ok g ∧ g.Id ≠ "") ∧
      (run cfg steps).forwarded = countForwardable cfg (run cfg steps).processed1 ∧
      (run cfg steps).enqueued1.length
        = (run cfg steps).queue1.length + (run cfg steps).processed1.length := by
  intro cfg steps p
  obtain ⟨h1, h2, h3, h4, h5, h6, h7⟩ := inv_run cfg steps
  refine ⟨?_, ?_, h6, h7⟩
  · cases hie : indexFile cfg.exec cfg.parse p with
    | error e => simp [stage1Process, hie]
    | ok g =>
      by_cases hid : g.Id = "" <;> simp [stage1Process, hie, hid]
  · cases hie : indexFile cfg.exec cfg.parse p with
    | error e => simp [stage1Process, hie]
    | ok g =>
      by_cases hid : g.Id = "" <;> simp [stage1Process, hie, hid]

/-- Closed witness for C3: on the demo configuration the handler does
forward, and the characterising equivalence yields the non-empty graph. -/
theorem c3_forward_exactly_once_witness :
    ∃ g, indexFile demoConfig.exec demoConfig.parse "f.bin" = .ok g ∧ g.Id ≠ "" :=
  (c3_forward_exactly_once demoConfig [] "f.bin").2.1.mp (by decide)

/-- C4: an indexer exit with the designated file-not-supported code yields
the empty-result graph and no error; an exit with any other code, or a
launch failure, yields an error; and a stage-1 task whose indexing errs
records that error in the stage-1 error queue, forwards nothing to stage 2
and is consumed. -/
theorem c4_indexFile_exit_handling :
    ∀ (cfg : Config) (s : PipelineState) (t : Task1) (rest : List Task1)
      (code : Int) (out msg : String) (e : Err),
      (cfg.exec t.filePath = .exitError fileNotSupportedExitCode out →
        indexFile cfg.exec cfg.parse t.filePath = .ok { Id := "" }) ∧
      (cfg.exec t.filePath = .exitError code out → code ≠ fileNotSupportedExitCode →
        indexFile cfg.exec cfg.parse t.filePath
          = .error ("Xray indexer app failed indexing " ++ t.filePath)) ∧
      (cfg.exec t.filePath = .launchFailure msg →
        indexFile cfg.exec cfg.parse t.filePath
          = .error ("Xray indexer app failed indexing " ++ t.filePath)) ∧
      (s.queue1 = t :: rest → indexFile cfg.exec cfg.parse t.filePath = .error e →
        (applyStep cfg s Step.runTask1).errs1 = s.errs1 ++ [e] ∧
        (applyStep cfg s Step.runTask1).queue2 = s.queue2 ∧
        (applyStep cfg s Step.runTask1).forwarded = s.forwarded ∧
        (applyStep cfg s Step.runTask1).queue1 = rest) := by
  intro cfg s t rest code out msg e
  refine ⟨?_, ?_, ?_, ?_⟩
  · intro hx
    simp [indexFile, hx]
  · intro hx hne
    simp [indexFile, hx, hne]
  · intro hx
    simp [indexFile, hx]
  · intro hq hie
    have hsp : stage1Process cfg t.filePath = (none, some e) := by
      simp [stage1Process, hie]
    simp [applyStep, hq, hsp]

/-- Closed witness for C4: the unsupported exit code yields the empty graph
on the demo paths, the broken indexer yields an error, and running that
task records the error while forwarding nothing. -/
theorem c4_indexFile_exit_handling_witness :
    indexFile cfgIndexerBroken.exec cfgIndexerBroken.parse "f.bin"
      = .error "Xray indexer app failed indexing f.bin" ∧
    (applyStep cfgIndexerBroken sIndexerBroken Step.runTask1).errs1
      = ["Xray indexer app failed indexing f.bin"] ∧
    (applyStep cfgIndexerBroken sIndexerBroken Step.runTask1).queue2 = [] ∧
    (applyStep cfgIndexerBroken sIndexerBroken Step.runTask1).forwarded = 0 := by
  have h := c4_indexFile_exit_handling cfgIndexerBroken sIndexerBroken taskF [] 2 "boom"
    "msg" "Xray indexer app failed indexing f.bin"
  have h2 := h.2.1 rfl (by decide)
  have h4 := h.2.2.2 rfl rfl
  exact ⟨h2, h4.1, h4.2.1, h4.2.2.1⟩

/-- C5: every forwarded graph is accounted for exactly once — pending in
the stage-2 queue, stored as exactly one result, or recorded as exactly one
stage-2 failure; once stage 2 has drained, stored results plus recorded
failures equal the forwarded count exactly (never zero, never two per
graph); and a single dispatch step either records one failure and stores
nothing (remote-call failure: the task is consumed and the pool's completion
state is untouched) or stores one result and records nothing. -/
theorem c5_scan_result_xor_failure :
    ∀ (cfg : Config) (steps : List Step) (s : PipelineState) (t : Task2)
      (rest : List Task2) (tid : Nat),
      (run cfg steps).forwarded
        = (run cfg steps).queue2.length + resultsTotal (run cfg steps)
          + (run cfg steps).errs2.length ∧
      ((run cfg steps).finished2 = true →
        resultsTotal (run cfg steps) + (run cfg steps).errs2.length
          = (run cfg steps).forwarded) ∧
      (s.queue2 = t :: rest → tid < s.resultsArr.length →
        ((∃ e, cfg.runScanGraph (mkScanParams cfg s.loopCell t) = .error e ∧
            (applyStep cfg s (Step.runTask2 tid)).errs2 = s.errs2 ++ [e] ∧
            resultsTotal (applyStep cfg s (Step.runTask2 tid)) = resultsTotal s) ∨
         (∃ r, cfg.runScanGraph (mkScanParams cfg s.loopCell t) = .ok r ∧
            (applyStep cfg s (Step.runTask2 tid)).errs2 = s.errs2 ∧
            resultsTotal (applyStep cfg s (Step.runTask2 tid)) = resultsTotal s + 1)) ∧
        (applyStep cfg s (Step.runTask2 tid)).queue2 = rest ∧
        (applyStep cfg s (Step.runTask2 tid)).done2 = s.done2 ∧
        (applyStep cfg s (Step.runTask2 tid)).finished2 = s.finished2) := by
  intro cfg steps s t rest tid
  obtain ⟨h1, h2, h3, h4, h5, h6, h7⟩ := inv_run cfg steps
  refine ⟨h5, ?_, ?_⟩
  · intro hf
    have hq := (h4 hf).2
    rw [hq] at h5
    simp only [List.length_nil] at h5
    omega
  · intro hq htid
    cases hsc : cfg.runScanGraph (mkScanParams cfg s.loopCell t) with
    | error e =>
      refine ⟨Or.inl ⟨e, rfl, ?_, ?_⟩, ?_, ?_, ?_⟩ <;>
        simp [applyStep, hq, htid, hsc, resultsTotal]
    | ok r =>
      have hset := sum_map_length_set s.resultsArr tid r htid
      refine ⟨Or.inr ⟨r, rfl, ?_, ?_⟩, ?_, ?_, ?_⟩
      · simp [applyStep, hq, htid, hsc]
      · simp only [applyStep, hq, if_pos htid, hsc]
        exact hset
      · simp [applyStep, hq, htid, hsc]
      · simp [applyStep, hq, htid, hsc]
      · simp [applyStep, hq, htid, hsc]

/-- Closed witness for C5: a concrete dispatch of the single pending task
stores exactly one result and records no failure, and on the finished demo
run results plus failures equal the forwarded count. -/
theorem c5_scan_result_xor_failure_witness :
    resultsTotal (run demoConfig demoSchedule) + (run demoConfig demoSchedule).errs2.length
      = (run demoConfig demoSchedule).forwarded ∧
    (applyStep demoConfig sOneTask2 (Step.runTask2 0)).queue2 = [] ∧
    resultsTotal (applyStep demoConfig sOneTask2 (Step.runTask2 0)) = 1 := by
  have h := c5_scan_result_xor_failure demoConfig demoSchedule sOneTask2
    { graph := { Id := "G" }, origin := groupA } [] 0
  have h3 := h.2.2 (by decide) (by decide)
  exact ⟨h.2.1 (by decide), h3.2.1, by decide⟩

/-- C6: after the pipeline phase, the epilogue's scan-passed flag — the
value `IsScanPassed` returns — is true iff no result in the flattened
per-worker result set carries any violation or any vulnerability (and the
flat list the fold produces is exactly that flattening). -/
theorem c6_scanPassed_iff :
    ∀ (cmd : ScanCommand) (env : RunEnv) (s : PipelineState),
      ((runEpilogue cmd env s).1.IsScanPassed = true ↔
        ∀ res ∈ s.resultsArr.flatten, res.Violations = [] ∧ res.Vulnerabilities = []) ∧
      (handleResults s.resultsArr).2 = s.resultsArr.flatten := by
  intro cmd env s
  constructor
  · have h1 : (runEpilogue cmd env s).1.IsScanPassed = (handleResults s.resultsArr).1 := rfl
    rw [h1, handleResults_eq]
    simp only [List.all_eq_true, noFindings, Bool.and_eq_true, List.isEmpty_iff]
    constructor
    · intro h res hres
      obtain ⟨l, hl, hr⟩ := List.mem_flatten.mp hres
      exact h l hl res hr
    · intro h l hl res hr
      exact h res (List.mem_flatten.mpr ⟨l, hl, hr⟩)
  · rw [handleResults_eq]

/-- Closed witness for C6: on the finished demo run one result carries a
violation, so the flag is false; on the empty start state it is true. -/
theorem c6_scanPassed_iff_witness :
    (runEpilogue demoConfig.cmd demoEnv (startState demoConfig)).1.IsScanPassed = true ∧
    ¬(runEpilogue demoConfig.cmd demoEnv (run demoConfig demoSchedule)).1.IsScanPassed = true := by
  constructor
  · exact (c6_scanPassed_iff demoConfig.cmd demoEnv (startState demoConfig)).1.mpr
      (by intro res hres; simp [startState] at hres)
  · intro hpass
    have h := (c6_scanPassed_iff demoConfig.cmd demoEnv (run demoConfig demoSchedule)).1.mp hpass
      { Violations := ["CVE-1"], Vulnerabilities := [] } (by decide)
    simp at h

/-- C7: `getXrayRepoPathFromTarget` maps a target ending with the path
separator to itself unchanged, and a target not ending with a separator to
its prefix up to and including the last separator, stripping the trailing
filename component — in particular "repo/a/b/" maps to itself and
"repo/a/b/file.txt" maps to "repo/a/b/". -/
theorem c7_getXrayRepoPathFromTarget_spec :
    (∀ t : List Char, t.getLast? = some '/' → repoPathFromTargetChars t = t) ∧
    (∀ p rest : List Char, '/' ∉ rest → rest ≠ [] →
      repoPathFromTargetChars (p ++ '/' :: rest) = p ++ ['/']) ∧
    getXrayRepoPathFromTarget "repo/a/b/" = "repo/a/b/" ∧
    getXrayRepoPathFromTarget "repo/a/b/file.txt" = "repo/a/b/" :=
  ⟨repoPathFromTargetChars_of_sep, repoPathFromTargetChars_strip, rfl, rfl⟩

/-- Closed witness for C7, discharging both general parts on concrete
targets. -/
theorem c7_getXrayRepoPathFromTarget_spec_witness :
    repoPathFromTargetChars "xy/".toList = "xy/".toList ∧
    repoPathFromTargetChars ("repo/a/b".toList ++ '/' :: "file.txt".toList)
      = "repo/a/b".toList ++ ['/'] :=
  ⟨c7_getXrayRepoPathFromTarget_spec.1 "xy/".toList (by decide),
   c7_getXrayRepoPathFromTarget_spec.2.1 "repo/a/b".toList "file.txt".toList
     (by decide) (by decide)⟩

/-- C8: the producer's output decomposes group by group — each group
contributes exactly its own collected paths as tasks and its own collection
error when one occurred, independently of the other groups' failures; the
pipeline's produce steps realise exactly this; and the concrete run whose
first group fails at root resolution still completes with the second
group's file indexed, scanned and stored. -/
theorem c8_group_error_isolated :
    (∀ (o : CollectOracle) (groups : List File),
      (prepareScanTasksModel o groups).1
        = groups.flatMap (fun g =>
            (collectFilesForIndexing o g).1.map (fun p => { filePath := p, origin := g })) ∧
      (prepareScanTasksModel o groups).2
        = groups.filterMap (fun g => (collectFilesForIndexing o g).2)) ∧
    (∀ cfg : Config,
      (run cfg (List.replicate cfg.groups.length Step.produceGroup)).queue1
        = (prepareScanTasksModel cfg.oracle cfg.groups).1 ∧
      (run cfg (List.replicate cfg.groups.length Step.produceGroup)).errs1
        = (prepareScanTasksModel cfg.oracle cfg.groups).2) ∧
    (run cfgGroupFail scheduleGroupFail).finished2 = true ∧
    (run cfgGroupFail scheduleGroupFail).errs1 = ["root resolution failed"] ∧
    (run cfgGroupFail scheduleGroupFail).processed1
      = [{ filePath := "artifact.bin", origin := groupA }] ∧
    resultsTotal (run cfgGroupFail scheduleGroupFail) = 1 := by
  refine ⟨?_, ?_, rfl, rfl, rfl, rfl⟩
  · intro o groups
    induction groups with
    | nil => simp [prepareScanTasksModel]
    | cons g rest ih =>
      cases hc : (collectFilesForIndexing o g).2 <;>
        simp [prepareScanTasksModel, ih.1, ih.2, hc, List.filterMap_cons]
  · intro cfg
    have h := produce_foldl cfg cfg.groups (startState cfg) rfl
    exact ⟨by simpa [startState] using h.1, by simpa [startState] using h.2.1⟩

/-- C9: each worker pool is sized at the configured thread count with a
minimum of one (a configured count of zero or less still yields one
worker), this pool size coincides with the length of the per-worker results
array allocated by `Run`, and hence every worker thread index below the
pool size is an in-bounds slot of that array. -/
theorem c9_pool_size_and_bounds :
    ∀ (cfg : Config) (tid : Nat),
      runnerSize cfg.cmd.threads = max cfg.cmd.threads 1 ∧
      1 ≤ runnerSize cfg.cmd.threads ∧
      (startState cfg).resultsArr.length = (runnerSize cfg.cmd.threads).toNat ∧
      (tid < (runnerSize cfg.cmd.threads).toNat →
        tid < (startState cfg).resultsArr.length) := by
  intro cfg tid
  have hlen : (startState cfg).resultsArr.length = (clampThreads cfg.cmd.threads).toNat := by
    simp [startState]
  have heq : runnerSize cfg.cmd.threads = clampThreads cfg.cmd.threads := by
    simp only [runnerSize, clampThreads]
    split <;> split <;> omega
  refine ⟨?_, ?_, ?_, ?_⟩
  · simp only [runnerSize]
    split <;> omega
  · simp only [runnerSize]
    split <;> omega
  · rw [hlen, heq]
  · intro h
    rw [heq] at h
    rw [hlen]
    exact h

/-- Closed witness for C9: with two configured threads, worker index 1 is in
bounds of the two-slot results array. -/
theorem c9_pool_size_and_bounds_witness :
    1 < (startState demoConfig).resultsArr.length :=
  (c9_pool_size_and_bounds demoConfig 1).2.2.2 (by decide)

/-- C10: the error queues of `Run` are created with capacity one, so each
stage retains at most its first recorded failure no matter how many items
fail; the queues are consulted only when printing succeeded and no
fail-build error fired (a print error is returned instead, the queues
unread), and the stage-1 queue is read first, so a retained stage-1 error
takes precedence over any stage-2 error; both reads take the final pipeline
state produced by the full schedule. -/
theorem c10_error_queue_retention :
    ∀ (es : List Err) (cfg : Config) (steps : List Step) (env : RunEnv) (e : Err),
      (retainedErrors es).buffer = es.take 1 ∧
      (env.printErr = some e →
        (runCommand cfg steps env).2 = some ("Scan command failed. " ++ e)) ∧
      (env.printErr = none →
        ¬(cfg.cmd.fail = true ∧ cfg.cmd.includeVulnerabilities = false ∧
          env.checkIfFailBuild (handleResults (run cfg steps).resultsArr).2 = true) →
        (retainedErrors (run cfg steps).errs1).getError = some e →
        (runCommand cfg steps env).2 = some ("Scan command failed. " ++ e)) ∧
      (env.printErr = none →
        ¬(cfg.cmd.fail = true ∧ cfg.cmd.includeVulnerabilities = false ∧
          env.checkIfFailBuild (handleResults (run cfg steps).resultsArr).2 = true) →
        (retainedErrors (run cfg steps).errs1).getError = none →
        (runCommand cfg steps env).2
          = wrapRunError (retainedErrors (run cfg steps).errs2).getError) := by
  intro es cfg steps env e
  refine ⟨retainedErrors_buffer es, ?_, ?_, ?_⟩
  · intro hp
    simp [runCommand, runEpilogue, hp, wrapRunError]
  · intro hp hfb h1
    simp only [runCommand, runEpilogue, hp, if_neg hfb, h1, wrapRunError]
  · intro hp hfb h1
    cases h2 : (retainedErrors (run cfg steps).errs2).getError <;>
      simp only [runCommand, runEpilogue, hp, if_neg hfb, h1, h2, wrapRunError]

/-- Closed witness for C10: two added errors retain only the first; a print
failure is returned with the queues unread; and on the failing-group run the
retained stage-1 error is the returned one. -/
theorem c10_error_queue_retention_witness :
    (retainedErrors ["first", "second"]).buffer = ["first"] ∧
    (runCommand demoConfig []
        { demoEnv with printErr := some "print broke" }).2
      = some ("Scan command failed. " ++ "print broke") ∧
    (runCommand cfgGroupFail scheduleGroupFail demoEnv).2
      = some ("Scan command failed. " ++ "root resolution failed") := by
  have h := c10_error_queue_retention ["first", "second"] demoConfig []
    { demoEnv with printErr := some "print broke" } "print broke"
  have h2 := c10_error_queue_retention [] cfgGroupFail scheduleGroupFail demoEnv
    "root resolution failed"
  refine ⟨h.1, h.2.1 rfl, h2.2.2.1 rfl ?_ rfl⟩
  intro hcon
  have : demoEnv.checkIfFailBuild
      (handleResults (run cfgGroupFail scheduleGroupFail).resultsArr).2 = true :=
    hcon.2.2
  simp [demoEnv] at this

end XrayScan
